import Mathlib

/-!
Shallow embedding of `src/main.py` (ImposterCli): the scroll-gesture
debouncer, the session state machine, the role assigner and the fuzzy
word matcher, with theorems checking the specification's claims.

Conventions of the embedding:
* Python floats (monotonic-clock instants) are modelled as exact
  rationals `ℚ`; all timing logic in the source only compares and adds
  such values.
* Python `int` is modelled as `ℤ`.
* The global mutable `ScrollState` / `UIState` dataclasses become
  explicit state records; each mutating function becomes a function
  from the old state to the new state.
* Calls to `on_direction(d)` inside `handle_scroll` (the gesture
  emission) are modelled by returning `some d`; `none` means no gesture
  was emitted by the pulse.
* Randomness (`random.randint`, `random.sample`, `random.choice`) and
  the word list loaded from `words.txt` (a file that is not part of the
  repository) are supplied by an `Env` record of oracles.
* Display-only side effects (`set_message_box_title`,
  `set_message_box_text`, `set_box_style`, `show_mode` bodies) mutate no
  session field used by any claim and are dropped from the state.
-/

namespace ImposterCli

/-- Scroll direction used for "advance" in the source (`GO_DIRECTION = "down"`). -/
def GO_DIRECTION : String := "down"

/-- Scroll direction used for "retreat" in the source (`BACK_DIRECTION = "up"`). -/
def BACK_DIRECTION : String := "up"

/-- Debounce window: `SCROLL_BUFFER_SECONDS = 0.8`. -/
def SCROLL_BUFFER_SECONDS : ℚ := 8 / 10

/-- Alias in the source: `SCROLL_GAP_SECONDS = SCROLL_BUFFER_SECONDS`. -/
def SCROLL_GAP_SECONDS : ℚ := SCROLL_BUFFER_SECONDS

/-- Alias in the source: `MIN_SCROLL_INTERVAL = SCROLL_BUFFER_SECONDS`. -/
def MIN_SCROLL_INTERVAL : ℚ := SCROLL_BUFFER_SECONDS

/-- The `ScrollState` dataclass of the source. -/
structure ScrollState where
  active : Bool := false
  last_time : ℚ := 0
  last_direction : Option String := none
  last_trigger_time : ℚ := 0
deriving DecidableEq, Repr

/-- Startup value of the global `scroll_state` (all dataclass defaults). -/
def initialScrollState : ScrollState := {}

/-- Embedding of `handle_scroll(direction, now)`.  The session field
`ui_state.scroll_block_until` that the source reads is passed in as
`blockUntil`; the call `on_direction(direction)` is modelled by the
`Option String` component of the result (`some direction` = a gesture
was emitted by this pulse). -/
def handle_scroll (direction : String) (now : ℚ) (blockUntil : ℚ)
    (sc : ScrollState) : ScrollState × Option String :=
  if now - sc.last_trigger_time < MIN_SCROLL_INTERVAL then
    (sc, none)
  else if now < blockUntil then
    (sc, none)
  else if sc.active = false then
    ({ sc with active := true, last_direction := some direction,
                last_time := now, last_trigger_time := now }, some direction)
  else if some direction ≠ sc.last_direction ∨
      now - sc.last_time > SCROLL_GAP_SECONDS then
    ({ sc with last_direction := some direction,
                last_time := now, last_trigger_time := now }, some direction)
  else
    ({ sc with last_time := now, last_trigger_time := now }, none)

/-- Embedding of `update_scroll_state(now)` (the per-tick window expiry). -/
def update_scroll_state (now : ℚ) (sc : ScrollState) : ScrollState :=
  if sc.active = true ∧ now - sc.last_time > SCROLL_GAP_SECONDS then
    { sc with active := false, last_direction := none }
  else
    sc

/-- An event fed to the debouncer: a raw directional pulse handled by
`handle_scroll`, or a main-loop tick running `update_scroll_state`. -/
inductive ScrollEv where
  | pulse (direction : String) (t : ℚ)
  | tick (t : ℚ)
deriving DecidableEq, Repr

/-- Run a sequence of debouncer events and count the emitted gestures.
The session block `blockUntil` is held fixed throughout the run. -/
def scroll_events (blockUntil : ℚ) : ScrollState → List ScrollEv → ScrollState × ℕ
  | sc, [] => (sc, 0)
  | sc, ScrollEv.pulse d t :: evs =>
      let r := handle_scroll d t blockUntil sc
      let rest := scroll_events blockUntil r.1 evs
      (rest.1, (if r.2.isSome then 1 else 0) + rest.2)
  | sc, ScrollEv.tick t :: evs =>
      scroll_events blockUntil (update_scroll_state t sc) evs

/-- Helper: a pulse arriving less than `MIN_SCROLL_INTERVAL` after the
previously accepted trigger is dropped and leaves the state unchanged,
regardless of its direction. -/
theorem handle_scroll_guard_rejects (direction : String) (now blockUntil : ℚ)
    (sc : ScrollState) (h : now - sc.last_trigger_time < MIN_SCROLL_INTERVAL) :
    handle_scroll direction now blockUntil sc = (sc, none) := by
  unfold handle_scroll
  simp [h]

/-- Helper: `update_scroll_state` never changes `last_trigger_time`. -/
theorem update_scroll_state_trigger (now : ℚ) (sc : ScrollState) :
    (update_scroll_state now sc).last_trigger_time = sc.last_trigger_time := by
  unfold update_scroll_state
  split <;> rfl

/-- Helper: while every pulse of `evs` arrives less than the debounce
interval after time `t0` and the state's accepted-trigger time is `t0`,
no event of `evs` emits anything and the trigger time stays `t0`. -/
theorem scroll_events_all_rejected (blockUntil t0 : ℚ) :
    ∀ (evs : List ScrollEv) (sc : ScrollState),
    sc.last_trigger_time = t0 →
    (∀ d t, ScrollEv.pulse d t ∈ evs → t - t0 < MIN_SCROLL_INTERVAL) →
    (scroll_events blockUntil sc evs).2 = 0 := by
  intro evs
  induction evs with
  | nil => intro sc _ _; rfl
  | cons ev rest ih =>
    intro sc hsc hall
    cases ev with
    | pulse d t =>
      have ht : t - t0 < MIN_SCROLL_INTERVAL := hall d t (List.mem_cons_self _ _)
      have hrej : handle_scroll d t blockUntil sc = (sc, none) := by
        apply handle_scroll_guard_rejects
        rw [hsc]; exact ht
      have hrest : (scroll_events blockUntil sc rest).2 = 0 := by
        apply ih sc hsc
        intro d' t' hmem
        exact hall d' t' (List.mem_cons_of_mem _ hmem)
      simp [scroll_events, hrej, hrest]
    | tick t =>
      have hsc' : (update_scroll_state t sc).last_trigger_time = t0 := by
        rw [update_scroll_state_trigger]; exact hsc
      have hrest := ih (update_scroll_state t sc) hsc' (fun d' t' hmem =>
        hall d' t' (List.mem_cons_of_mem _ hmem))
      simp [scroll_events, hrest]

/-- Concrete debouncer state used to refute claim C1: a gesture in
direction "down" was accepted at time 10. -/
def scrollCexState : ScrollState :=
  { active := true, last_time := 10, last_direction := some "down",
    last_trigger_time := 10 }

/-- C1 counterexample: from a state whose previously recorded direction is
"down" (accepted at time 10), a raw "up" pulse at time 10.5 — 0.5s after
the previously accepted trigger, hence inside the 0.8s re-trigger guard —
emits no gesture at all, although its direction differs. -/
theorem c1_counterexample :
    some "up" ≠ scrollCexState.last_direction ∧
    (21 : ℚ) / 2 - scrollCexState.last_trigger_time < MIN_SCROLL_INTERVAL ∧
    (handle_scroll "up" (21 / 2) 0 scrollCexState).2 = none := by
  refine ⟨by decide, ?_, ?_⟩
  · norm_num [scrollCexState, MIN_SCROLL_INTERVAL, SCROLL_BUFFER_SECONDS]
  · have h : (21 : ℚ) / 2 - scrollCexState.last_trigger_time
        < MIN_SCROLL_INTERVAL := by
      norm_num [scrollCexState, MIN_SCROLL_INTERVAL, SCROLL_BUFFER_SECONDS]
    simp [handle_scroll, h]

/-- C1 (amended): a raw pulse whose direction differs from the previously
recorded direction emits a gesture immediately, provided it passes the
global 0.8s re-trigger guard and the session scroll block; a pulse
arriving less than 0.8s after the previously accepted trigger is dropped
even when its direction differs. -/
theorem c1_direction_change_emits (direction : String) (now blockUntil : ℚ)
    (sc : ScrollState)
    (hguard : ¬ (now - sc.last_trigger_time < MIN_SCROLL_INTERVAL))
    (hblock : ¬ (now < blockUntil))
    (hdir : some direction ≠ sc.last_direction) :
    (handle_scroll direction now blockUntil sc).2 = some direction := by
  unfold handle_scroll
  rw [if_neg hguard, if_neg hblock]
  by_cases hact : sc.active = false
  · rw [if_pos hact]
  · rw [if_neg hact, if_pos (Or.inl hdir)]

/-- C1 witness: at time 2, 1s after the accepted "down" trigger at time 1,
an "up" pulse emits the "up" gesture. -/
theorem c1_witness :
    (handle_scroll "up" 2 0
      { active := true, last_time := 1, last_direction := some "down",
        last_trigger_time := 1 }).2 = some "up" :=
  c1_direction_change_emits "up" 2 0 _
    (by norm_num [MIN_SCROLL_INTERVAL, SCROLL_BUFFER_SECONDS])
    (by norm_num) (by decide)

/-- C2 counterexample: three same-direction pulses at times 1, 1.5 and 2 —
each arriving 0.5s (< 0.8s) after the previous pulse — emit two gestures,
not one: the pulse at 1.5 is rejected without refreshing the accepted
trigger, so the pulse at 2 falls outside the guard window again. -/
theorem c2_counterexample :
    ((3 : ℚ) / 2 - 1 < SCROLL_BUFFER_SECONDS ∧
      (2 : ℚ) - 3 / 2 < SCROLL_BUFFER_SECONDS) ∧
    (scroll_events 0 initialScrollState
      [ScrollEv.pulse "down" 1, ScrollEv.pulse "down" (3 / 2),
        ScrollEv.pulse "down" 2]).2 = 2 := by
  constructor
  · constructor <;> norm_num [SCROLL_BUFFER_SECONDS]
  · norm_num [scroll_events, handle_scroll, initialScrollState,
      MIN_SCROLL_INTERVAL, SCROLL_GAP_SECONDS, SCROLL_BUFFER_SECONDS]

/-- C2 (amended): any pulse arriving less than 0.8s after the previously
accepted trigger is rejected without emitting and without changing the
debouncer state, regardless of direction; consequently, a run whose first
pulse is accepted from the inactive state and whose later pulses each
arrive less than 0.8s after that first (accepted) pulse emits exactly one
gesture, at the first pulse. -/
theorem c2_single_emission_per_run :
    (∀ (direction : String) (now blockUntil : ℚ) (sc : ScrollState),
      now - sc.last_trigger_time < MIN_SCROLL_INTERVAL →
      handle_scroll direction now blockUntil sc = (sc, none)) ∧
    (∀ (blockUntil t0 : ℚ) (d0 : String) (evs : List ScrollEv)
        (sc : ScrollState),
      sc.active = false →
      ¬ (t0 - sc.last_trigger_time < MIN_SCROLL_INTERVAL) →
      ¬ (t0 < blockUntil) →
      (∀ d t, ScrollEv.pulse d t ∈ evs → t - t0 < MIN_SCROLL_INTERVAL) →
      (scroll_events blockUntil sc (ScrollEv.pulse d0 t0 :: evs)).2 = 1) := by
  constructor
  · exact fun direction now blockUntil sc h =>
      handle_scroll_guard_rejects direction now blockUntil sc h
  · intro blockUntil t0 d0 evs sc hactive hguard hblock hevs
    have hfirst : handle_scroll d0 t0 blockUntil sc =
        ({ sc with
           active := true, last_direction := some d0,
           last_time := t0, last_trigger_time := t0 }, some d0) := by
      unfold handle_scroll
      rw [if_neg hguard, if_neg hblock, if_pos hactive]
    have hrest : (scroll_events blockUntil
        { sc with
          active := true, last_direction := some d0,
          last_time := t0, last_trigger_time := t0 } evs).2 = 0 :=
      scroll_events_all_rejected blockUntil t0 evs _ rfl hevs
    simp [scroll_events, hfirst, hrest]

/-- C2 witness: a run starting with an accepted "down" pulse at time 1
followed by pulses at 1.5 and 1.7 (and a tick at 1.6), all within 0.8s of
the accepted pulse, emits exactly one gesture. -/
theorem c2_witness :
    (scroll_events 0 initialScrollState
      [ScrollEv.pulse "down" 1, ScrollEv.pulse "up" (3 / 2),
        ScrollEv.tick (8 / 5), ScrollEv.pulse "down" (17 / 10)]).2 = 1 := by
  apply c2_single_emission_per_run.2 0 1 "down"
    [ScrollEv.pulse "up" (3 / 2), ScrollEv.tick (8 / 5),
      ScrollEv.pulse "down" (17 / 10)] initialScrollState rfl
  · norm_num [initialScrollState, MIN_SCROLL_INTERVAL, SCROLL_BUFFER_SECONDS]
  · norm_num
  · intro d t ht
    simp only [List.mem_cons, List.not_mem_nil, or_false] at ht
    rcases ht with h | h | h
    · rw [ScrollEv.pulse.injEq] at h
      rw [h.2]
      norm_num [MIN_SCROLL_INTERVAL, SCROLL_BUFFER_SECONDS]
    · exact ScrollEv.noConfusion h
    · rw [ScrollEv.pulse.injEq] at h
      rw [h.2]
      norm_num [MIN_SCROLL_INTERVAL, SCROLL_BUFFER_SECONDS]

/-- The `BoxStyle` dataclass (curses colour-pair numbers). -/
structure BoxStyle where
  fill_pair : ℤ := 3
  text_pair : ℤ := 6
  border_pair : ℤ := 4
deriving DecidableEq, Repr

/-- The `GameMode` dataclass. -/
structure GameMode where
  name : String
  description : String
  style : BoxStyle
  source : String
deriving DecidableEq, Repr

/-- The constant `DEFAULT_STYLE = BoxStyle()`. -/
def DEFAULT_STYLE : BoxStyle := {}

/-- The constant `IMPOSTER_STYLE = BoxStyle(fill_pair=3, text_pair=11, border_pair=11)`. -/
def IMPOSTER_STYLE : BoxStyle := { fill_pair := 3, text_pair := 11, border_pair := 11 }

/-- The `GAME_MODES` list of the source. -/
def GAME_MODES : List GameMode :=
  [ { name := "BACK", description := "Return to start.",
      style := IMPOSTER_STYLE, source := "back" },
    { name := "Player", description := "Spieler gibt Geheimwort ein.",
      style := DEFAULT_STYLE, source := "player" },
    { name := "Random", description := "Zufällige Wörter mit Suche.",
      style := DEFAULT_STYLE, source := "random" },
    { name := "Random Simple", description := "Wörter durchscrollen, unten wählen.",
      style := DEFAULT_STYLE, source := "random_simple" } ]

/-- The `UIState` dataclass, with its dataclass defaults.  The
`random_candidates` / `simple_candidates` fields default to `None` in the
source but every read goes through Python truthiness (`or []`,
`if not ...`), under which `None` and `[]` are indistinguishable, so both
are modelled as `[]`. -/
structure UIState where
  screen : String := "idle"
  input_buffer : String := ""
  word_count_buffer : String := ""
  imposter_percent_buffer : String := ""
  player_count : ℤ := 0
  word_options_count : ℤ := 0
  word_buffer : String := ""
  chosen_word : String := ""
  mode_index : ℤ := 0
  selected_mode : Option GameMode := none
  imposter_index : Option ℤ := none
  current_player : ℤ := 0
  countdown_until : ℚ := 0
  reveal_until : ℚ := 0
  handoff_until : ℚ := 0
  handoff_advance : Bool := true
  handoff_pending_action : String := ""
  imposter_all_chance : ℤ := 0
  all_imposter_except_first : Bool := false
  random_candidates : List String := []
  random_filter : String := ""
  scroll_block_until : ℚ := 0
  simple_candidates : List String := []
  simple_index : ℤ := 0
  simple_hold_started : Bool := false
  simple_hold_until : ℚ := 0
deriving DecidableEq, Repr

/-- Startup value of the global `ui_state = UIState()`. -/
def initialUIState : UIState := {}

/-- Oracles for the effects the source takes from outside the session:
the word list loaded from `words.txt` (a data file, not part of the
source) and the process-wide random generator.  `randint lo hi` stands
for `random.randint(lo, hi)`, `sample pool k` for a successful
`random.sample(pool, k)`, and `choice pool` for `random.choice(pool)`
on a non-empty pool. -/
structure Env where
  words : List String
  randint : ℤ → ℤ → ℤ
  sample : List String → ℕ → List String
  choice : List String → String

/-- Embedding of `reset_idle()`.  It follows the source assignment list
exactly: note that `mode_index` and `scroll_block_until` are absent from
that list and therefore keep their previous values.  The
`set_box_style` / `set_message_box_*` calls touch only the display
payload and are dropped. -/
def reset_idle (s : UIState) : UIState :=
  { s with
    screen := "idle"
    input_buffer := ""
    word_count_buffer := ""
    imposter_percent_buffer := ""
    word_options_count := 0
    word_buffer := ""
    player_count := 0
    chosen_word := ""
    selected_mode := none
    imposter_index := none
    current_player := 0
    countdown_until := 0
    reveal_until := 0
    handoff_until := 0
    handoff_advance := true
    handoff_pending_action := ""
    imposter_all_chance := 0
    all_imposter_except_first := false
    simple_hold_started := false
    simple_hold_until := 0
    random_candidates := []
    random_filter := ""
    simple_candidates := []
    simple_index := 0 }

/-- Python `int(s)` on the strings the three numeric input buffers can
hold: those buffers only ever receive the characters `chr(48)`–`chr(57)`
(see the digit branches of the main loop), so a buffer is parseable
exactly when it is a non-empty digit string; `int` of anything else
raises `ValueError`, modelled as `none`. -/
def py_parse_int (s : String) : Option ℤ :=
  if s.toList ≠ [] ∧ s.toList.all Char.isDigit then
    some (s.toList.foldl (fun a c => 10 * a + ((c.toNat : ℤ) - 48)) 0)
  else none

/-- Embedding of `enter_confirm()`: parses the three numeric buffers with
the source's `try`/`except ValueError` fallbacks and clamping. -/
def enter_confirm (s : UIState) : UIState :=
  { s with
    screen := "confirm"
    player_count :=
      match py_parse_int s.input_buffer with
      | some v => max 1 v
      | none => 1
    word_options_count :=
      match py_parse_int
          (if s.word_count_buffer = "" then "0" else s.word_count_buffer) with
      | some v => max 0 v
      | none => 0
    imposter_all_chance :=
      match py_parse_int
          (if s.imposter_percent_buffer = "" then "0"
           else s.imposter_percent_buffer) with
      | some v => max 0 (min 100 v)
      | none => 0 }

/-- Concrete mid-flow session used to refute claim C5: the user has
scrolled to mode 2 and a 1s gesture-suppression deadline expiring at
time 7 is pending. -/
def c5State : UIState :=
  { initialUIState with
    screen := "mode_select", player_count := 4, mode_index := 2,
    scroll_block_until := 7 }

/-- C5 counterexample: after `reset_idle`, `mode_index` is still 2 and
`scroll_block_until` is still 7 — not their startup defaults 0 and 0.0 —
and the stale scroll-block deadline still fires: a raw pulse at time 6.5
(well past the 0.8s guard) is suppressed in the fresh idle session. -/
theorem c5_counterexample :
    (reset_idle c5State).mode_index = 2 ∧
    initialUIState.mode_index = 0 ∧
    (reset_idle c5State).scroll_block_until = 7 ∧
    initialUIState.scroll_block_until = 0 ∧
    (handle_scroll "down" (13 / 2) (reset_idle c5State).scroll_block_until
      initialScrollState).2 = none := by
  refine ⟨rfl, rfl, rfl, rfl, ?_⟩
  norm_num [handle_scroll, reset_idle, c5State, initialUIState,
    initialScrollState, MIN_SCROLL_INTERVAL, SCROLL_BUFFER_SECONDS]

/-- C5 (amended): `reset_idle` returns every session field except
`mode_index` and `scroll_block_until` to its startup default and shows
the initial idle screen; `mode_index` and `scroll_block_until` keep
their previous values. -/
theorem c5_reset_idle_fields (s : UIState) :
    reset_idle s =
      { initialUIState with
        mode_index := s.mode_index,
        scroll_block_until := s.scroll_block_until } :=
  rfl

/-- Helper: the percent parsed by `enter_confirm` is always inside
`[0, 100]`. -/
theorem enter_confirm_chance_bounds (s : UIState) :
    0 ≤ (enter_confirm s).imposter_all_chance ∧
    (enter_confirm s).imposter_all_chance ≤ 100 := by
  have hz : py_parse_int "0" = some 0 := by decide
  constructor
  · by_cases he : s.imposter_percent_buffer = ""
    · simp [enter_confirm, he, hz]
    · rcases hp : py_parse_int s.imposter_percent_buffer with _ | v <;>
        simp [enter_confirm, he, hp] <;> omega
  · by_cases he : s.imposter_percent_buffer = ""
    · simp [enter_confirm, he, hz]
    · rcases hp : py_parse_int s.imposter_percent_buffer with _ | v <;>
        simp [enter_confirm, he, hp] <;> omega

/-- C8: entering the confirm screen parses the three numeric buffers
defensively: an unparseable player-count buffer yields `player_count = 1`,
an unparseable option-count buffer yields `word_options_count = 0`, an
unparseable imposter-percent buffer yields `imposter_all_chance = 0`, and
the percent value is always clamped into `[0, 100]`. -/
theorem c8_confirm_parse_fallbacks (s : UIState) :
    (py_parse_int s.input_buffer = none →
      (enter_confirm s).player_count = 1) ∧
    (py_parse_int s.word_count_buffer = none →
      (enter_confirm s).word_options_count = 0) ∧
    (py_parse_int s.imposter_percent_buffer = none →
      (enter_confirm s).imposter_all_chance = 0) ∧
    0 ≤ (enter_confirm s).imposter_all_chance ∧
    (enter_confirm s).imposter_all_chance ≤ 100 := by
  have hz : py_parse_int "0" = some 0 := by decide
  refine ⟨fun h => by simp [enter_confirm, h], fun h => ?_, fun h => ?_,
    (enter_confirm_chance_bounds s).1, (enter_confirm_chance_bounds s).2⟩
  · by_cases he : s.word_count_buffer = ""
    · simp [enter_confirm, he, hz]
    · simp [enter_confirm, he, h]
  · by_cases he : s.imposter_percent_buffer = ""
    · simp [enter_confirm, he, hz]
    · simp [enter_confirm, he, h]

/-- C8 witness: with all three buffers empty (the unparseable case the
input screens can actually produce), the confirm screen adopts
`player_count = 1`, `word_options_count = 0`, `imposter_all_chance = 0`. -/
theorem c8_witness :
    (enter_confirm { initialUIState with input_buffer := "" }).player_count = 1 ∧
    (enter_confirm initialUIState).word_options_count = 0 ∧
    (enter_confirm initialUIState).imposter_all_chance = 0 :=
  ⟨(c8_confirm_parse_fallbacks _).1 (by decide),
   (c8_confirm_parse_fallbacks initialUIState).2.1 (by decide),
   (c8_confirm_parse_fallbacks initialUIState).2.2.1 (by decide)⟩

/-- C10: after `enter_confirm`, the parsed setup values always satisfy
the data-model bounds — `player_count ≥ 1` (a buffer parsing to 0, and
the empty buffer, are both raised to 1), `word_options_count ≥ 0` and
`imposter_all_chance ∈ [0, 100]` — for every buffer content. -/
theorem c10_confirm_bounds (s : UIState) :
    1 ≤ (enter_confirm s).player_count ∧
    0 ≤ (enter_confirm s).word_options_count ∧
    0 ≤ (enter_confirm s).imposter_all_chance ∧
    (enter_confirm s).imposter_all_chance ≤ 100 ∧
    (py_parse_int s.input_buffer = some 0 →
      (enter_confirm s).player_count = 1) ∧
    (s.input_buffer = "" → (enter_confirm s).player_count = 1) := by
  obtain ⟨h0, h100⟩ := enter_confirm_chance_bounds s
  refine ⟨?_, ?_, h0, h100, fun h => by simp [enter_confirm, h], fun h => ?_⟩
  · rcases hp : py_parse_int s.input_buffer with _ | v <;>
      simp [enter_confirm, hp] <;> omega
  · rcases hw : py_parse_int (if s.word_count_buffer = "" then "0"
        else s.word_count_buffer) with _ | v <;>
      simp [enter_confirm, hw] <;> omega
  · have hp : py_parse_int s.input_buffer = none := by rw [h]; decide
    simp [enter_confirm, hp]

/-- C10 witness: a player-count buffer containing "0" is raised to 1 and
the bounds hold at a concrete state. -/
theorem c10_witness :
    1 ≤ (enter_confirm { initialUIState with input_buffer := "0" }).player_count ∧
    (enter_confirm { initialUIState with input_buffer := "0" }).player_count = 1 :=
  ⟨(c10_confirm_bounds _).1,
   (c10_confirm_bounds { initialUIState with input_buffer := "0" }).2.2.2.2.1
     (by decide)⟩

/-- Embedding of `assign_imposter()`.  `env.randint 1 100` is the roll
drawn by `random.randint(1, 100)`; the single-imposter index draws are
`env.randint` over the interval the source requests. -/
def assign_imposter (env : Env) (s : UIState) : UIState :=
  if s.player_count ≤ 1 then
    { s with imposter_index := none, all_imposter_except_first := false }
  else
    let s1 := { s with all_imposter_except_first := false }
    let roll := env.randint 1 100
    if roll ≤ s1.imposter_all_chance then
      { s1 with imposter_index := none, all_imposter_except_first := true }
    else
      match s1.selected_mode with
      | some m =>
        if m.source = "player" then
          { s1 with imposter_index := some (env.randint 1 (s1.player_count - 1)) }
        else if m.source = "random" ∧ s1.word_options_count > 1 then
          { s1 with imposter_index := some (env.randint 1 (s1.player_count - 1)) }
        else if m.source = "random_simple" ∧ s1.word_options_count > 1 then
          { s1 with imposter_index := some (env.randint 1 (s1.player_count - 1)) }
        else
          { s1 with imposter_index := some (env.randint 0 (s1.player_count - 1)) }
      | none =>
        { s1 with imposter_index := some (env.randint 0 (s1.player_count - 1)) }

/-- The mode condition under which `assign_imposter` draws the single
imposter from `[1, player_count - 1]` (player 0 protected): mode Player,
or mode Random / RandomSimple with more than one word option. -/
def restricted_mode_draw (s : UIState) : Prop :=
  ∃ m, s.selected_mode = some m ∧
    (m.source = "player" ∨
      ((m.source = "random" ∨ m.source = "random_simple") ∧
        s.word_options_count > 1))

/-- Helper: in the single-imposter branch, which interval the index is
drawn from is decided exactly by `restricted_mode_draw`. -/
theorem assign_imposter_draw (env : Env) (s : UIState)
    (hpc : ¬ s.player_count ≤ 1)
    (hroll : ¬ env.randint 1 100 ≤ s.imposter_all_chance) :
    (restricted_mode_draw s →
      assign_imposter env s =
        { s with all_imposter_except_first := false,
                 imposter_index := some (env.randint 1 (s.player_count - 1)) }) ∧
    (¬ restricted_mode_draw s →
      assign_imposter env s =
        { s with all_imposter_except_first := false,
                 imposter_index := some (env.randint 0 (s.player_count - 1)) }) := by
  cases hm : s.selected_mode with
  | none =>
    constructor
    · rintro ⟨m, hm', -⟩
      rw [hm] at hm'
      cases hm'
    · intro _
      simp [assign_imposter, hpc, hroll, hm]
  | some m =>
    by_cases hp : m.source = "player"
    · refine ⟨fun _ => ?_, fun hnr => absurd ⟨m, hm, Or.inl hp⟩ hnr⟩
      simp [assign_imposter, hpc, hroll, hm, hp]
    · by_cases hra : m.source = "random" ∧ s.word_options_count > 1
      · refine ⟨fun _ => ?_,
          fun hnr => absurd ⟨m, hm, Or.inr ⟨Or.inl hra.1, hra.2⟩⟩ hnr⟩
        simp [assign_imposter, hpc, hroll, hm, hp, hra]
      · by_cases hrs : m.source = "random_simple" ∧ s.word_options_count > 1
        · refine ⟨fun _ => ?_,
            fun hnr => absurd ⟨m, hm, Or.inr ⟨Or.inr hrs.1, hrs.2⟩⟩ hnr⟩
          simp [assign_imposter, hpc, hroll, hm, hp, hra, hrs]
        · constructor
          · rintro ⟨m', hm', hsrc⟩
            rw [hm] at hm'
            injection hm' with hm''
            subst hm''
            rcases hsrc with h | ⟨h | h, hw⟩
            · exact (hp h).elim
            · exact (hra ⟨h, hw⟩).elim
            · exact (hrs ⟨h, hw⟩).elim
          · intro _
            simp [assign_imposter, hpc, hroll, hm, hp, hra, hrs]

/-- C3: the exact case analysis of role assignment.  With `player_count
≤ 1` no field is set; otherwise a roll in `[1, 100]` at or below
`imposter_all_chance` sets only `all_imposter_except_first`; otherwise a
single index is drawn from `[1, player_count - 1]` exactly when the mode
is Player or the mode is Random / RandomSimple with
`word_options_count > 1`, and from `[0, player_count - 1]` otherwise; in
every case `imposter_index` set and `all_imposter_except_first` true are
mutually exclusive. -/
theorem c3_assign_imposter_cases (env : Env) (s : UIState)
    (hrng : ∀ lo hi : ℤ, lo ≤ hi →
      lo ≤ env.randint lo hi ∧ env.randint lo hi ≤ hi) :
    (s.player_count ≤ 1 →
      (assign_imposter env s).imposter_index = none ∧
      (assign_imposter env s).all_imposter_except_first = false) ∧
    (1 < s.player_count →
      1 ≤ env.randint 1 100 ∧ env.randint 1 100 ≤ 100) ∧
    (1 < s.player_count → env.randint 1 100 ≤ s.imposter_all_chance →
      (assign_imposter env s).all_imposter_except_first = true ∧
      (assign_imposter env s).imposter_index = none) ∧
    (1 < s.player_count → ¬ env.randint 1 100 ≤ s.imposter_all_chance →
      (assign_imposter env s).all_imposter_except_first = false ∧
      (restricted_mode_draw s →
        (assign_imposter env s).imposter_index =
          some (env.randint 1 (s.player_count - 1)) ∧
        1 ≤ env.randint 1 (s.player_count - 1) ∧
        env.randint 1 (s.player_count - 1) ≤ s.player_count - 1) ∧
      (¬ restricted_mode_draw s →
        (assign_imposter env s).imposter_index =
          some (env.randint 0 (s.player_count - 1)) ∧
        0 ≤ env.randint 0 (s.player_count - 1) ∧
        env.randint 0 (s.player_count - 1) ≤ s.player_count - 1)) ∧
    ¬ ((assign_imposter env s).imposter_index.isSome = true ∧
      (assign_imposter env s).all_imposter_except_first = true) := by
  by_cases hpc : s.player_count ≤ 1
  · refine ⟨fun _ => by simp [assign_imposter, hpc],
      fun h => absurd hpc (by omega),
      fun h _ => absurd hpc (by omega),
      fun h _ => absurd hpc (by omega), ?_⟩
    simp [assign_imposter, hpc]
  · have hpc1 : 1 < s.player_count := by omega
    refine ⟨fun h => absurd h hpc,
      fun _ => hrng 1 100 (by omega), fun _ hroll => ?_, fun _ hroll => ?_, ?_⟩
    · simp [assign_imposter, hpc, hroll]
    · obtain ⟨hres, hnres⟩ := assign_imposter_draw env s hpc hroll
      constructor
      · by_cases hr : restricted_mode_draw s
        · rw [hres hr]
        · rw [hnres hr]
      refine ⟨fun hr => ?_, fun hr => ?_⟩
      · rw [hres hr]
        exact ⟨rfl, hrng 1 (s.player_count - 1) (by omega)⟩
      · rw [hnres hr]
        exact ⟨rfl, hrng 0 (s.player_count - 1) (by omega)⟩
    · by_cases hroll : env.randint 1 100 ≤ s.imposter_all_chance
      · simp [assign_imposter, hpc, hroll]
      · obtain ⟨hres, hnres⟩ := assign_imposter_draw env s hpc hroll
        by_cases hr : restricted_mode_draw s
        · rw [hres hr]; simp
        · rw [hnres hr]; simp

/-- Environment with deterministic oracles used by the concrete
witnesses: `randint` always returns the lower end of the interval. -/
def env0 : Env :=
  { words := ["alpha", "beta", "gamma"],
    randint := fun lo _ => lo,
    sample := fun pool k => pool.take k,
    choice := fun pool => pool.headD "mystery" }

/-- C3 witness: three players, no selected mode, zero all-imposter
chance: the roll 1 exceeds the chance 0 and the unrestricted draw over
`[0, 2]` yields index 0; the flag stays false. -/
theorem c3_witness :
    (assign_imposter env0
      { initialUIState with player_count := 3 }).imposter_index = some 0 ∧
    (assign_imposter env0
      { initialUIState with player_count := 3 }).all_imposter_except_first
        = false := by
  have h := (c3_assign_imposter_cases env0
    { initialUIState with player_count := 3 }
    (fun lo hi hle => ⟨le_refl lo, hle⟩)).2.2.2.1
    (by decide) (by decide)
  have hnr : ¬ restricted_mode_draw { initialUIState with player_count := 3 } := by
    rintro ⟨m, hm, -⟩
    cases hm
  exact ⟨(h.2.2 hnr).1, h.1⟩

/-- Embedding of `choose_word_for_source(source)`: an empty pool falls
back to the literal `"mystery"`, otherwise `random.choice(pool)`. -/
def choose_word_for_source (env : Env) (source : String) : String :=
  if env.words = [] then "mystery" else env.choice env.words

/-- Python `str.lower()` as used on the ASCII filter/word text the input
loop admits (printable characters 32–126). -/
def py_lower (s : String) : List Char :=
  s.toList.map Char.toLower

/-- Python tuple comparison `<` on the integer score tuples (here as
lists of equal length 5): lexicographic, first differing entry decides. -/
def lexLt : List ℤ → List ℤ → Bool
  | [], [] => false
  | [], _ :: _ => true
  | _ :: _, [] => false
  | a :: as, b :: bs => if a < b then true else if b < a then false else lexLt as bs

/-- Python `max(b :: xs, key=...)`: fold keeping the current best,
replacing it only when a strictly greater key appears — so the first
element attaining the maximal key wins. -/
def py_max_by (key : String → List ℤ) : String → List String → String
  | b, [] => b
  | b, x :: xs => py_max_by key (if lexLt (key b) (key x) then x else b) xs

/-- The descending loop of `tail_prefix_len(f, w)`:
`for k in range(limit, 0, -1): if w.startswith(f[-k:]): return k`. -/
def tail_prefix_go (f w : List Char) : ℕ → ℕ
  | 0 => 0
  | k + 1 =>
    if (f.drop (f.length - (k + 1))).isPrefixOf w then k + 1
    else tail_prefix_go f w k

/-- Embedding of the nested `tail_prefix_len(f, w)` of
`best_random_choice`. -/
def tail_prefix_len (f w : List Char) : ℕ :=
  tail_prefix_go f w (min f.length w.length)

/-- Python substring containment `sub in w`. -/
def list_contains (w sub : List Char) : Bool :=
  (List.range (w.length + 1)).any (fun i => sub.isPrefixOf (w.drop i))

/-- The descending loop of `tail_any_len(f, w)`:
`for k in range(limit, 0, -1): if f[-k:] in w: return k`. -/
def tail_any_go (f w : List Char) : ℕ → ℕ
  | 0 => 0
  | k + 1 =>
    if list_contains w (f.drop (f.length - (k + 1))) then k + 1
    else tail_any_go f w k

/-- Embedding of the nested `tail_any_len(f, w)` of `best_random_choice`. -/
def tail_any_len (f w : List Char) : ℕ :=
  tail_any_go f w (min f.length w.length)

/-- Python `w.find(ch, start)`: index of the first occurrence of `ch` at
or after `start`, `none` for `-1`. -/
def py_str_find (w : List Char) (c : Char) (start : ℕ) : Option ℕ :=
  match (w.drop start).findIdx? (fun a => a = c) with
  | some j => some (start + j)
  | none => none

/-- The greedy subsequence loop of `score`: each filter character is
matched to the next occurrence after the previous match; characters with
no remaining occurrence are skipped (`continue`). -/
def subseq_go (w : List Char) : List Char → ℕ → ℤ → ℤ
  | [], _, sub => sub
  | c :: cs, idx, sub =>
    match py_str_find w c idx with
    | none => subseq_go w cs idx sub
    | some found => subseq_go w cs (found + 1) (sub + 1)

/-- The prefix loop of `score`: matching characters from position 0
until the first mismatch between filter and word. -/
def pref_score : List Char → List Char → ℤ
  | a :: as, b :: bs => if a = b then 1 + pref_score as bs else 0
  | _, _ => 0

/-- Embedding of the nested `score(word)` of `best_random_choice`: the
5-tuple (tail-prefix, tail-substring, common-prefix, greedy subsequence
count, negative word length), computed on the lowercased word against
the lowercased filter. -/
def score (filt : List Char) (word : String) : List ℤ :=
  [ (tail_prefix_len filt (py_lower word) : ℤ),
    (tail_any_len filt (py_lower word) : ℤ),
    pref_score filt (py_lower word),
    subseq_go (py_lower word) filt 0 0,
    -(word.length : ℤ) ]

/-- Embedding of `best_random_choice()`: empty candidate list falls back
to a random word; an empty (lowercased) filter returns the first
candidate; otherwise the Python `max` over the candidates keyed by
`score`. -/
def best_random_choice (env : Env) (s : UIState) : String :=
  match s.random_candidates with
  | [] => choose_word_for_source env "random"
  | c :: cs =>
    if py_lower s.random_filter = [] then c
    else py_max_by (score (py_lower s.random_filter)) c cs

/-- Session state of the C9 scenario: candidates
`["apple", "apricot", "banana"]`, filter `"ap"`. -/
def c9State : UIState :=
  { initialUIState with
    random_candidates := ["apple", "apricot", "banana"],
    random_filter := "ap" }

/-- C9: on the candidate list `["apple", "apricot", "banana"]` with
filter `"ap"`, the fuzzy matcher returns `"apple"`. -/
theorem c9_best_is_apple : best_random_choice env0 c9State = "apple" := by
  decide

/-- Helper: `lexLt` is irreflexive. -/
theorem lexLt_irrefl : ∀ a : List ℤ, lexLt a a = false := by
  intro a
  induction a with
  | nil => rfl
  | cons a0 as ih => simp [lexLt, ih]

/-- Helper: `lexLt` is transitive. -/
theorem lexLt_trans :
    ∀ a b c : List ℤ, lexLt a b = true → lexLt b c = true → lexLt a c = true := by
  intro a
  induction a with
  | nil =>
    intro b c hab hbc
    cases b with
    | nil => simp [lexLt] at hab
    | cons b0 bs =>
      cases c with
      | nil => simp [lexLt] at hbc
      | cons c0 cs => simp [lexLt]
  | cons a0 as ih =>
    intro b c hab hbc
    cases b with
    | nil => simp [lexLt] at hab
    | cons b0 bs =>
      cases c with
      | nil => simp [lexLt] at hbc
      | cons c0 cs =>
        simp only [lexLt] at hab hbc ⊢
        by_cases h1 : a0 < b0
        · by_cases h2 : b0 < c0
          · rw [if_pos (lt_trans h1 h2)]
          · rw [if_neg h2] at hbc
            by_cases h3 : c0 < b0
            · rw [if_pos h3] at hbc
              cases hbc
            · have hbc0 : b0 = c0 := by omega
              subst hbc0
              rw [if_pos h1]
        · rw [if_neg h1] at hab
          by_cases h4 : b0 < a0
          · rw [if_pos h4] at hab
            cases hab
          · rw [if_neg h4] at hab
            have hab0 : a0 = b0 := by omega
            subst hab0
            by_cases h2 : a0 < c0
            · rw [if_pos h2]
            · rw [if_neg h2] at hbc ⊢
              by_cases h5 : c0 < a0
              · rw [if_pos h5] at hbc
                cases hbc
              · rw [if_neg h5] at hbc ⊢
                exact ih bs cs hab hbc

/-- Helper: `lexLt` is trichotomous. -/
theorem lexLt_trichotomy :
    ∀ a b : List ℤ, lexLt a b = true ∨ a = b ∨ lexLt b a = true := by
  intro a
  induction a with
  | nil =>
    intro b
    cases b with
    | nil => exact Or.inr (Or.inl rfl)
    | cons b0 bs => exact Or.inl (by simp [lexLt])
  | cons a0 as ih =>
    intro b
    cases b with
    | nil => exact Or.inr (Or.inr (by simp [lexLt]))
    | cons b0 bs =>
      rcases lt_trichotomy a0 b0 with h | h | h
      · exact Or.inl (by simp [lexLt, h])
      · subst h
        rcases ih bs with h2 | h2 | h2
        · exact Or.inl (by simp [lexLt, h2])
        · exact Or.inr (Or.inl (by rw [h2]))
        · exact Or.inr (Or.inr (by simp [lexLt, h2]))
      · exact Or.inr (Or.inr (by simp [lexLt, h, asymm h]))

/-- Helper: `lexLt` is asymmetric. -/
theorem lexLt_asymm (a b : List ℤ) (h : lexLt a b = true) : lexLt b a = false := by
  cases hh : lexLt b a with
  | false => rfl
  | true =>
    have h2 := lexLt_trans a b a h hh
    rw [lexLt_irrefl] at h2
    cases h2

/-- Helper: strict < below a non-exceeded bound stays strict
(`a < b ≤ c → a < c` for `lexLt`). -/
theorem lexLt_lt_of_not_lt (a b c : List ℤ)
    (hab : lexLt a b = true) (hcb : lexLt c b = false) : lexLt a c = true := by
  rcases lexLt_trichotomy b c with h | h | h
  · exact lexLt_trans a b c hab h
  · rw [← h]
    exact hab
  · rw [hcb] at h
    cases h

/-- Helper: a non-loss composed with a strict win stays strict
(`a ≤ b < c → a < c` for `lexLt`). -/
theorem lexLt_of_not_lt_of_lt (a b c : List ℤ)
    (hba : lexLt b a = false) (hbc : lexLt b c = true) : lexLt a c = true := by
  rcases lexLt_trichotomy a b with h | h | h
  · exact lexLt_trans a b c h hbc
  · rw [h]
    exact hbc
  · rw [hba] at h
    cases h

/-- The specification of Python `max(_, key=...)`: `r` occurs in the
list, no element's key beats `r`'s key, and every element strictly
before that occurrence of `r` has a strictly smaller key (so the first
maximal element is returned). -/
def IsFirstMax (key : String → List ℤ) (l : List String) (r : String) : Prop :=
  ∃ l₁ l₂, l = l₁ ++ r :: l₂ ∧
    (∀ y ∈ l, lexLt (key r) (key y) = false) ∧
    (∀ y ∈ l₁, lexLt (key y) (key r) = true)

/-- Helper: `py_max_by` returns the first element of maximal key. -/
theorem py_max_by_first_max (key : String → List ℤ) :
    ∀ (xs : List String) (b : String),
      IsFirstMax key (b :: xs) (py_max_by key b xs) := by
  intro xs
  induction xs with
  | nil =>
    intro b
    refine ⟨[], [], rfl, ?_, by simp⟩
    intro y hy
    rw [List.mem_singleton] at hy
    subst hy
    exact lexLt_irrefl _
  | cons x xs ih =>
    intro b
    rw [py_max_by]
    by_cases h : lexLt (key b) (key x) = true
    · rw [if_pos h]
      obtain ⟨l₁, l₂, heq, hle, hlt⟩ := ih x
      have hbr : lexLt (key b) (key (py_max_by key x xs)) = true :=
        lexLt_lt_of_not_lt _ _ _ h (hle x (List.mem_cons_self _ _))
      refine ⟨b :: l₁, l₂, ?_, ?_, ?_⟩
      · rw [List.cons_append, ← heq]
      · intro y hy
        rcases List.mem_cons.mp hy with rfl | hy'
        · exact lexLt_asymm _ _ hbr
        · exact hle y hy'
      · intro y hy
        rcases List.mem_cons.mp hy with rfl | hy'
        · exact hbr
        · exact hlt y hy'
    · have hF : lexLt (key b) (key x) = false := by
        cases hh : lexLt (key b) (key x) with
        | false => rfl
        | true => exact absurd hh h
      rw [if_neg h]
      obtain ⟨l₁, l₂, heq, hle, hlt⟩ := ih b
      cases l₁ with
      | nil =>
        rw [List.nil_append] at heq
        injection heq with h1 h2
        refine ⟨[], x :: xs, ?_, ?_, by simp⟩
        · rw [List.nil_append, ← h1]
        · intro y hy
          rcases List.mem_cons.mp hy with rfl | hy'
          · rw [← h1]
            exact lexLt_irrefl _
          · rcases List.mem_cons.mp hy' with rfl | hy''
            · rw [← h1]
              exact hF
            · exact hle y (List.mem_cons_of_mem b hy'')
      | cons a l₁' =>
        rw [List.cons_append] at heq
        injection heq with h1 h2
        subst h1
        have hbr : lexLt (key b) (key (py_max_by key b xs)) = true :=
          hlt b (List.mem_cons_self _ _)
        have hxr : lexLt (key x) (key (py_max_by key b xs)) = true :=
          lexLt_of_not_lt_of_lt _ _ _ hF hbr
        refine ⟨b :: x :: l₁', l₂, ?_, ?_, ?_⟩
        · rw [List.cons_append, List.cons_append, ← h2]
        · intro y hy
          rcases List.mem_cons.mp hy with rfl | hy'
          · exact hle y (List.mem_cons_self _ _)
          · rcases List.mem_cons.mp hy' with rfl | hy''
            · exact lexLt_asymm _ _ hxr
            · exact hle y (List.mem_cons_of_mem b hy'')
        · intro y hy
          rcases List.mem_cons.mp hy with rfl | hy'
          · exact hbr
          · rcases List.mem_cons.mp hy' with rfl | hy''
            · exact hxr
            · exact hlt y (List.mem_cons_of_mem b hy'')

/-- Helper: the empty list is a prefix of every list. -/
theorem nil_isPrefixOf_true (w : List Char) :
    ([] : List Char).isPrefixOf w = true := by
  cases w <;> rfl

/-- Helper: the descending tail-prefix scan returns a length whose
tail-of-filter is a prefix of the word (at 0 the empty tail). -/
theorem tail_prefix_go_holds (f w : List Char) :
    ∀ n, (f.drop (f.length - tail_prefix_go f w n)).isPrefixOf w = true := by
  intro n
  induction n with
  | zero =>
    show (f.drop (f.length - 0)).isPrefixOf w = true
    rw [Nat.sub_zero, List.drop_length]
    exact nil_isPrefixOf_true w
  | succ n ih =>
    rw [tail_prefix_go]
    split
    · assumption
    · exact ih

/-- Helper: the tail-prefix scan result never exceeds its bound. -/
theorem tail_prefix_go_le (f w : List Char) : ∀ n, tail_prefix_go f w n ≤ n := by
  intro n
  induction n with
  | zero => exact le_refl 0
  | succ n ih =>
    rw [tail_prefix_go]
    split
    · exact le_refl _
    · exact Nat.le_succ_of_le ih

/-- Helper: the tail-prefix scan result is the greatest length within the
bound whose filter tail is a prefix of the word. -/
theorem tail_prefix_go_ge (f w : List Char) :
    ∀ n j, j ≤ n → (f.drop (f.length - j)).isPrefixOf w = true →
      j ≤ tail_prefix_go f w n := by
  intro n
  induction n with
  | zero =>
    intro j hj _
    exact hj
  | succ n ih =>
    intro j hj hp
    rw [tail_prefix_go]
    split
    · exact hj
    · rename_i hcond
      rcases Nat.lt_or_ge j (n + 1) with hlt | hge
      · exact ih j (Nat.lt_succ_iff.mp hlt) hp
      · have hj1 : j = n + 1 := le_antisymm hj hge
        subst hj1
        exact absurd hp hcond

/-- Helper: the empty string is contained in every word. -/
theorem list_contains_nil (w : List Char) : list_contains w [] = true := by
  rw [list_contains, List.any_eq_true]
  exact ⟨0, List.mem_range.mpr (Nat.succ_pos _), nil_isPrefixOf_true w⟩

/-- Helper: the descending tail-substring scan returns a length whose
tail-of-filter occurs inside the word (at 0 the empty tail). -/
theorem tail_any_go_holds (f w : List Char) :
    ∀ n, list_contains w (f.drop (f.length - tail_any_go f w n)) = true := by
  intro n
  induction n with
  | zero =>
    show list_contains w (f.drop (f.length - 0)) = true
    rw [Nat.sub_zero, List.drop_length]
    exact list_contains_nil w
  | succ n ih =>
    rw [tail_any_go]
    split
    · assumption
    · exact ih

/-- Helper: the tail-substring scan result never exceeds its bound. -/
theorem tail_any_go_le (f w : List Char) : ∀ n, tail_any_go f w n ≤ n := by
  intro n
  induction n with
  | zero => exact le_refl 0
  | succ n ih =>
    rw [tail_any_go]
    split
    · exact le_refl _
    · exact Nat.le_succ_of_le ih

/-- Helper: the tail-substring scan result is the greatest length within
the bound whose filter tail occurs inside the word. -/
theorem tail_any_go_ge (f w : List Char) :
    ∀ n j, j ≤ n → list_contains w (f.drop (f.length - j)) = true →
      j ≤ tail_any_go f w n := by
  intro n
  induction n with
  | zero =>
    intro j hj _
    exact hj
  | succ n ih =>
    intro j hj hp
    rw [tail_any_go]
    split
    · exact hj
    · rename_i hcond
      rcases Nat.lt_or_ge j (n + 1) with hlt | hge
      · exact ih j (Nat.lt_succ_iff.mp hlt) hp
      · have hj1 : j = n + 1 := le_antisymm hj hge
        subst hj1
        exact absurd hp hcond

/-- C4: on a non-empty candidate list, an empty filter returns the first
candidate; a non-empty filter returns the first candidate attaining the
lexicographically maximal score 5-tuple (so the result is a
deterministic function of candidates and filter, ties resolved to the
earliest candidate); and the first two tuple entries really are the
largest tail-of-filter lengths that are a prefix of, respectively occur
inside, the candidate. -/
theorem c4_best_first_max (env : Env) (s : UIState)
    (hne : s.random_candidates ≠ []) :
    (py_lower s.random_filter = [] →
      best_random_choice env s = s.random_candidates.headD "") ∧
    (py_lower s.random_filter ≠ [] →
      IsFirstMax (score (py_lower s.random_filter)) s.random_candidates
        (best_random_choice env s)) ∧
    (∀ f w : List Char,
      (f.drop (f.length - tail_prefix_len f w)).isPrefixOf w = true ∧
      tail_prefix_len f w ≤ min f.length w.length ∧
      (∀ j, j ≤ min f.length w.length →
        (f.drop (f.length - j)).isPrefixOf w = true →
        j ≤ tail_prefix_len f w)) ∧
    (∀ f w : List Char,
      list_contains w (f.drop (f.length - tail_any_len f w)) = true ∧
      tail_any_len f w ≤ min f.length w.length ∧
      (∀ j, j ≤ min f.length w.length →
        list_contains w (f.drop (f.length - j)) = true →
        j ≤ tail_any_len f w)) := by
  obtain ⟨c, cs, hc⟩ : ∃ c cs, s.random_candidates = c :: cs := by
    cases hcc : s.random_candidates with
    | nil => exact absurd hcc hne
    | cons c cs => exact ⟨c, cs, rfl⟩
  refine ⟨fun h => ?_, fun h => ?_, fun f w => ?_, fun f w => ?_⟩
  · rw [hc]
    unfold best_random_choice
    rw [hc]
    show (if py_lower s.random_filter = [] then c
          else py_max_by (score (py_lower s.random_filter)) c cs)
        = (c :: cs).headD ""
    rw [if_pos h, List.headD_cons]
  · rw [hc]
    have hb : best_random_choice env s
        = py_max_by (score (py_lower s.random_filter)) c cs := by
      unfold best_random_choice
      rw [hc]
      show (if py_lower s.random_filter = [] then c
            else py_max_by (score (py_lower s.random_filter)) c cs)
          = py_max_by (score (py_lower s.random_filter)) c cs
      rw [if_neg h]
    rw [hb]
    exact py_max_by_first_max _ cs c
  · exact ⟨tail_prefix_go_holds f w _, tail_prefix_go_le f w _,
      fun j hj hp => tail_prefix_go_ge f w _ j hj hp⟩
  · exact ⟨tail_any_go_holds f w _, tail_any_go_le f w _,
      fun j hj hp => tail_any_go_ge f w _ j hj hp⟩

/-- Session state used by the C4 witness: candidates
`["beta", "alpha"]`, filter `"al"`. -/
def c4State : UIState :=
  { initialUIState with
    random_candidates := ["beta", "alpha"],
    random_filter := "al" }

/-- C4 witness: with an empty filter the first candidate "beta" is
returned; with filter "al" the returned candidate is the first maximal
one under the score ordering. -/
theorem c4_witness :
    best_random_choice env0 { initialUIState with
      random_candidates := ["beta", "alpha"] } = "beta" ∧
    IsFirstMax (score (py_lower "al")) ["beta", "alpha"]
      (best_random_choice env0 c4State) :=
  ⟨(c4_best_first_max env0 { initialUIState with
      random_candidates := ["beta", "alpha"] } (by decide)).1 (by decide),
   (c4_best_first_max env0 c4State (by decide)).2.1 (by decide)⟩

/-- Embedding of `enter_word_entry()` (screen change; title/body are
display-only). -/
def enter_word_entry (s : UIState) : UIState :=
  { s with screen := "word_entry" }

/-- Embedding of `start_waiting()` (screen change; title/body are
display-only). -/
def start_waiting (s : UIState) : UIState :=
  { s with screen := "wait_scroll" }

/-- Embedding of `start_reveal(now)`: enters the reveal screen and arms
its deadline at `now + 3`. -/
def start_reveal (now : ℚ) (s : UIState) : UIState :=
  { s with screen := "reveal", reveal_until := now + 3 }

/-- Embedding of `start_handoff(now, advance_after, pending_action)`. -/
def start_handoff (now : ℚ) (advance_after : Bool) (pending_action : String)
    (s : UIState) : UIState :=
  { s with screen := "handoff", handoff_until := now + 3,
           handoff_advance := advance_after,
           handoff_pending_action := pending_action }

/-- Embedding of `advance_player()`. -/
def advance_player (s : UIState) : UIState :=
  let s1 := { s with current_player := s.current_player + 1 }
  if s1.current_player ≥ s1.player_count then { s1 with screen := "done" }
  else start_waiting s1

/-- Embedding of `enter_random_pick()` (screen change; the fuzzy top
candidate shown in the title is display-only). -/
def enter_random_pick (s : UIState) : UIState :=
  { s with screen := "random_pick" }

/-- Embedding of `enter_random_simple(now)` (screen change; `now` is
used only for the countdown text). -/
def enter_random_simple (now : ℚ) (s : UIState) : UIState :=
  { s with screen := "random_simple" }

/-- Embedding of `prepare_word_and_start()`: resolves `chosen_word` from
the selected mode, resets `current_player`, assigns the imposter and
routes to handoff / reveal / wait_scroll.  The `time.monotonic()` calls
of the source are the tick instant `now`. -/
def prepare_word_and_start (env : Env) (now : ℚ) (s : UIState) : UIState :=
  match s.selected_mode with
  | none => s
  | some m =>
    let s1 :=
      if m.source = "player" then
        { s with chosen_word :=
            if s.word_buffer ≠ "" then s.word_buffer else "mystery" }
      else if m.source = "random" ∧ s.chosen_word ≠ "" then s
      else if m.source = "random_simple" ∧ s.chosen_word ≠ "" then s
      else { s with chosen_word := choose_word_for_source env m.source }
    let s2 := { s1 with current_player := 0 }
    let s3 := assign_imposter env s2
    if s3.word_options_count > 1 ∧ s3.player_count > 1 ∧
        s3.current_player = 0 then
      start_handoff now true "" s3
    else if s3.word_options_count > 1 then
      start_reveal now s3
    else
      start_waiting s3

/-- Python `random.sample(pool, k)`: raises `ValueError` when `k`
exceeds the pool size (modelled as `none`); the selection of a
successful draw is delegated to the environment oracle. -/
def py_sample (env : Env) (pool : List String) (k : ℕ) : Option (List String) :=
  if k ≤ pool.length then some (env.sample pool k) else none

/-- Embedding of `start_random_flow()`.  `none` models an uncaught
`ValueError` from `random.sample`. -/
def start_random_flow (env : Env) (now : ℚ) (s : UIState) : Option UIState :=
  if s.word_options_count ≤ 1 then
    some (prepare_word_and_start env now
      { s with chosen_word := choose_word_for_source env "random",
               random_candidates := [], random_filter := "" })
  else
    match py_sample env env.words
        (min s.word_options_count (env.words.length : ℤ)).toNat with
    | none => none
    | some cands =>
        some (enter_random_pick
          { s with random_candidates := cands, random_filter := "" })

/-- Embedding of `start_random_simple()`.  `none` models an uncaught
`ValueError` from `random.sample`: the requested size is
`max(1, min(count, pool_size))`, which is 1 — larger than the pool — when
the pool is empty. -/
def start_random_simple (env : Env) (now : ℚ) (s : UIState) : Option UIState :=
  if s.word_options_count ≤ 1 then
    some (prepare_word_and_start env now
      { s with chosen_word := choose_word_for_source env "random",
               simple_candidates := [], simple_index := 0 })
  else
    let pool_size : ℤ := (env.words.length : ℤ)
    let count1 := if s.word_options_count > 0 then s.word_options_count
      else pool_size
    let count := max 1 (min count1 pool_size)
    match py_sample env env.words count.toNat with
    | none => none
    | some cands =>
        some (enter_random_simple now
          { s with simple_candidates := cands, simple_index := 0,
                   simple_hold_started := false, simple_hold_until := 0 })

/-- Embedding of `lock_random_simple_choice()`.  The in-range index
access `simple_candidates[simple_index]` is modelled with `getD` (the
source maintains `simple_index` modulo the candidate count). -/
def lock_random_simple_choice (env : Env) (now : ℚ) (s : UIState) : UIState :=
  let s1 :=
    if s.simple_candidates = [] then
      { s with chosen_word := choose_word_for_source env "random" }
    else
      { s with chosen_word := s.simple_candidates.getD s.simple_index.toNat "" }
  let s2 := { s1 with simple_hold_started := false, simple_hold_until := 0 }
  prepare_word_and_start env now s2

/-- Embedding of `update_timers(now)`: the per-tick deadline dispatch.
`none` models an uncaught exception inside a pending action
(`random.sample` on a too-small pool). -/
def update_timers (env : Env) (now : ℚ) (s : UIState) : Option UIState :=
  if s.screen = "random_simple" ∧ s.simple_hold_started = true ∧
      s.simple_hold_until > 0 ∧ now ≥ s.simple_hold_until then
    some (lock_random_simple_choice env now s)
  else if s.screen = "reveal" ∧ now ≥ s.reveal_until then
    if s.current_player + 1 ≥ s.player_count then
      some { advance_player s with scroll_block_until := now + 1 }
    else
      some { start_handoff now true "" s with scroll_block_until := now + 1 }
  else if s.screen = "handoff" ∧ now ≥ s.handoff_until then
    Option.map (fun s2 => { s2 with scroll_block_until := now + 1 })
      (if s.handoff_pending_action = "enter_word_entry" then
        some (enter_word_entry { s with handoff_pending_action := "" })
      else if s.handoff_pending_action = "start_random_flow" then
        start_random_flow env now { s with handoff_pending_action := "" }
      else if s.handoff_pending_action = "start_random_simple" then
        start_random_simple env now { s with handoff_pending_action := "" }
      else if s.handoff_pending_action = "prepare_word_and_start" then
        some (prepare_word_and_start env now
          { s with handoff_pending_action := "" })
      else if s.handoff_pending_action ≠ "" then
        some { s with handoff_pending_action := "" }
      else if s.handoff_advance = true then
        some (advance_player s)
      else
        some (start_waiting s))
  else
    some s

/-- Environment with an empty word pool (missing or empty `words.txt`). -/
def envEmpty : Env :=
  { words := [],
    randint := fun lo _ => lo,
    sample := fun pool k => pool.take k,
    choice := fun pool => pool.headD "mystery" }

/-- C6: at the failing input — empty word pool, `word_options_count = 2`,
random_simple browse flow — `start_random_simple` requests a sample of
size `max(1, min(2, 0)) = 1` from the empty pool, so `random.sample`
raises `ValueError` (modelled `none`) instead of capping to
`min(word_options_count, pool size) = 0`.  The filtered random flow at
the same input does cap its request at the pool size and succeeds. -/
theorem c6_empty_pool_sample_fails :
    start_random_simple envEmpty 0
      { initialUIState with word_options_count := 2 } = none ∧
    max 1 (min (2 : ℤ) ((envEmpty.words.length : ℤ))) = 1 ∧
    min (2 : ℤ) ((envEmpty.words.length : ℤ)) = 0 ∧
    (start_random_flow envEmpty 0
      { initialUIState with word_options_count := 2 }).isSome = true := by
  refine ⟨by decide, by decide, by decide, by decide⟩

/-- C7: `start_reveal` arms the reveal deadline at entry time + 3s; when
a tick reaches it, the session moves to `done` via `advance_player` when
`current_player` is the last index and to `handoff` (deadline `now + 3`)
otherwise, in both cases arming the 1s gesture-suppression deadline
`scroll_block_until = now + 1`; the same suppression deadline is armed by
every timer-fired transition out of `handoff`. -/
theorem c7_reveal_timer (env : Env) (now t0 : ℚ) (s t : UIState) :
    ((start_reveal t0 t).reveal_until = t0 + 3) ∧
    (s.screen = "reveal" → now ≥ s.reveal_until →
      s.current_player + 1 ≥ s.player_count →
      update_timers env now s
        = some { advance_player s with scroll_block_until := now + 1 } ∧
      (advance_player s).screen = "done") ∧
    (s.screen = "reveal" → now ≥ s.reveal_until →
      ¬ s.current_player + 1 ≥ s.player_count →
      update_timers env now s
        = some { start_handoff now true "" s with
                 scroll_block_until := now + 1 } ∧
      (start_handoff now true "" s).screen = "handoff" ∧
      (start_handoff now true "" s).handoff_until = now + 3) ∧
    (s.screen = "handoff" → now ≥ s.handoff_until →
      ∀ s2, update_timers env now s = some s2 →
        s2.scroll_block_until = now + 1) := by
  refine ⟨rfl, fun hscr hrev hlast => ?_, fun hscr hrev hlast => ?_,
    fun hscr hho s2 heq => ?_⟩
  · constructor
    · rw [update_timers]
      rw [if_neg (by simp [hscr]), if_pos ⟨hscr, hrev⟩, if_pos hlast]
    · rw [advance_player]
      have h : s.current_player + 1 ≥ s.player_count := hlast
      simp only [if_pos h]
  · constructor
    · rw [update_timers]
      rw [if_neg (by simp [hscr]), if_pos ⟨hscr, hrev⟩, if_neg hlast]
    · exact ⟨rfl, rfl⟩
  · rw [update_timers] at heq
    rw [if_neg (by simp [hscr]), if_neg (by simp [hscr]),
      if_pos ⟨hscr, hho⟩] at heq
    rcases Option.map_eq_some'.mp heq with ⟨s3, _, hs3⟩
    rw [← hs3]

/-- Concrete reveal state for the C7 witness: the sole player (index 0
of 1) is on the reveal screen whose deadline expired at time 5. -/
def c7State : UIState :=
  { initialUIState with
    screen := "reveal", reveal_until := 5, player_count := 1,
    current_player := 0 }

/-- C7 witness: at tick time 6 the expired reveal of the last player
transitions to `done` with the 1s scroll suppression armed. -/
theorem c7_witness :
    update_timers env0 6 c7State
      = some { advance_player c7State with scroll_block_until := 6 + 1 } ∧
    (advance_player c7State).screen = "done" :=
  (c7_reveal_timer env0 6 0 c7State c7State).2.1 rfl
    (by norm_num [c7State]) (by decide)

end ImposterCli
